import Mathlib

/-!
A verification development for the financial-analysis pipeline
(`financial_analyzer/src`): a shallow embedding in Lean 4 of the
pydantic record models (`models.py`), the merge-and-derive pipeline
(`processor.py:process_data`), the crossover detector
(`signals.py:detect_golden_crossover`) and the per-row price validation
loop of the fetch layer (`data_fetcher.py:fetch_stock_data`), together
with theorems settling the specification's claims about them.

Modelling conventions:
* dates are integer day numbers (only ordering and equality of dates
  matter to the pipeline);
* all monetary values are `ℚ` (the pipeline's float/Decimal arithmetic
  on the inputs considered here is exact);
* `Option` encodes nullability; fallible operations return `Option`
  (with `none` for a raised exception) or `Except String`;
* pandas DataFrames are lists of rows; a DataFrame column is the list
  of that field over the rows.
-/

namespace FinAnalyzer

/-- Calendar dates as integer day numbers. -/
abbrev Date := Int

/-- `models.PriceData` after successful pydantic validation.
`open` is a reserved word in Lean, hence the field name `open_`. -/
structure PriceData where
  date : Date
  open_ : ℚ
  high : ℚ
  low : ℚ
  close : ℚ
  volume : Int
deriving DecidableEq, Repr, Inhabited

/-- `models.FundamentalData`. The `source` literal tag is kept as a
string; the pipeline never computes with it. -/
structure FundamentalData where
  as_of : Date
  ticker : String
  book_value : Option ℚ
  total_assets : Option ℚ
  total_liabilities : Option ℚ
  pe_ratio : Option ℚ
  pb_ratio : Option ℚ
  eps : Option ℚ
  revenue : Option ℚ
  net_income : Option ℚ
  enterprise_value : Option ℚ
  source : String
deriving DecidableEq, Repr, Inhabited

/-- `models.DailyMetrics` after successful pydantic validation
(`ticker : str` is mandatory, the numeric metric fields are Optional). -/
structure DailyMetrics where
  date : Date
  ticker : String
  close : ℚ
  sma_50 : Option ℚ
  sma_200 : Option ℚ
  high_52w : Option ℚ
  pct_from_high_52w : Option ℚ
  book_value_per_share : Option ℚ
  price_to_book : Option ℚ
  enterprise_value : Option ℚ
deriving DecidableEq, Repr, Inhabited

/-- A row of the intermediate `merged` DataFrame of
`processor.process_data` (after lines 79-127 of `processor.py`): price
fields, carried-forward fundamental fields, technical indicators and
the two fundamental ratios.

`ticker` is `Option String` because the merge drops the fundamental
`ticker` column (`fund_df.drop(columns=["as_of", "ticker"])`, line 80)
and then line 88 (`merged["ticker"] = None`) re-creates it as an
all-`None` column, so in the merged frame the ticker is always null.

`pct_from_high_52w : Option ℚ` encodes the float division
`close / high_52w - 1`: `none` stands for the non-finite float (NaN or
±inf) obtained when `high_52w = 0`, which the later `Decimal`/pydantic
conversion rejects. -/
structure MergedRow where
  date : Date
  open_ : ℚ
  high : ℚ
  low : ℚ
  close : ℚ
  volume : Int
  ticker : Option String
  book_value : Option ℚ
  total_assets : Option ℚ
  total_liabilities : Option ℚ
  pe_ratio : Option ℚ
  pb_ratio : Option ℚ
  eps : Option ℚ
  revenue : Option ℚ
  net_income : Option ℚ
  enterprise_value : Option ℚ
  sma_50 : ℚ
  sma_200 : ℚ
  high_52w : ℚ
  pct_from_high_52w : Option ℚ
  book_value_per_share : Option ℚ
  price_to_book : Option ℚ
deriving DecidableEq, Repr, Inhabited

/-- `price_df.sort_values("date")` (`processor.py` line 25). pandas'
default quicksort is unstable; ties between equal dates are resolved in
an unspecified order there, and stably here. No claim depends on the
tie order. -/
def sortPricesByDate (prices : List PriceData) : List PriceData :=
  List.insertionSort (fun a b => a.date ≤ b.date) prices

/-- `fund_df.sort_values("as_of")` (`processor.py` line 47). -/
def sortFundsByAsOf (fundamentals : List FundamentalData) : List FundamentalData :=
  List.insertionSort (fun a b => a.as_of ≤ b.as_of) fundamentals

/-- The value a pandas `reindex(..., method="ffill")` over a sorted
unique `as_of` index attaches to target date `d`: the last observation
with `as_of ≤ d`, or null if none exists (`processor.py` line 62). -/
def ffillLookup (funds : List FundamentalData) (d : Date) : Option FundamentalData :=
  (funds.filter fun f => f.as_of ≤ d).getLast?

/-- The fundamental snapshot attached to each (sorted) price date,
`processor.py` lines 45-68.

Non-empty fundamentals (lines 45-64): sort by `as_of`, then
`set_index("as_of").reindex(price_df["date"], method="ffill")`.
pandas `Index.reindex` first short-circuits when the existing index
equals the target (`if self.equals(target): indexer = None`): the
frame is kept as-is, row `i` of the sorted fundamentals attaching to
price date `i` positionally (for a unique index this coincides with
the forward-fill lookup). Only when the indexes differ does it
dispatch on uniqueness, raising `ValueError` on duplicate labels —
i.e. when two observations share an `as_of` date — before any method
lookup; that exception propagates out of `process_data` uncaught,
which this embedding renders as `none`. Otherwise (unique `as_of`),
`method="ffill"` attaches to each price date the last observation
with `as_of ≤` it.

Empty fundamentals (lines 65-68): a frame of all-`None` columns with
one row per price date. -/
def buildFundRows (sortedPrices : List PriceData) (fundamentals : List FundamentalData) :
    Option (List (Option FundamentalData)) :=
  if fundamentals.isEmpty then
    some (sortedPrices.map fun _ => none)
  else
    let fund_sorted := sortFundsByAsOf fundamentals
    if fund_sorted.map (·.as_of) = sortedPrices.map (·.date) then
      some (fund_sorted.map some)
    else if (fund_sorted.map (·.as_of)).Nodup then
      some (sortedPrices.map fun p => ffillLookup fund_sorted p.date)
    else
      none

/-- The values feeding the pandas rolling window of width `w` that ends
at index `i`: the last `min (w, i+1)` entries of `xs.take (i+1)`. -/
def windowSlice (w : Nat) (xs : List ℚ) (i : Nat) : List ℚ :=
  (xs.take (i + 1)).drop (i + 1 - w)

/-- Maximum of a list of rationals (`0` on the empty list, which the
pipeline never evaluates: rolling windows at in-range indices are
non-empty). -/
def listMax : List ℚ → ℚ
  | [] => 0
  | x :: xs => xs.foldl max x

/-- `series.rolling(window=w, min_periods=1).mean()` (`processor.py`
lines 100-101): at each index, the mean of the trailing window,
expanding until `w` observations accumulate. -/
def rollingMean (w : Nat) (xs : List ℚ) : List ℚ :=
  (List.range xs.length).map fun i =>
    (windowSlice w xs i).sum / ((windowSlice w xs i).length : ℚ)

/-- `series.rolling(window=w, min_periods=1).max()` (`processor.py`
line 102). -/
def rollingMax (w : Nat) (xs : List ℚ) : List ℚ :=
  (List.range xs.length).map fun i => listMax (windowSlice w xs i)

/-- The `merged` DataFrame, `processor.py` lines 70-127.

The concat (lines 79-83) joins the sorted price frame with the
fundamental frame minus its `as_of`/`ticker` columns; the two frames
always have equal length (the `reindex` target is `price_df["date"]`),
so the length-mismatch padding of lines 74-78 and the emptiness repair
of lines 90-97 are dead code and are not modelled. Line 88 re-adds
`ticker` as an all-`None` column, so `ticker := none` on every row.

`price_to_book` (lines 122-127): `close / book_value` unless
`book_value` is in `[None, 0]`. A carried `book_value` of `none`
stands both for python `None` (empty-fundamentals frame) and for the
float NaN left by a `reindex` gap; the lambda maps the former to
`None` and the latter to float NaN — both are rendered `none` here,
which is faithful for every claim below because the conversion loop
discards every merged row regardless (see
`mkDailyMetricsFromMerged`). -/
def buildMerged (sortedPrices : List PriceData) (fundRows : List (Option FundamentalData)) :
    List MergedRow :=
  let closes := sortedPrices.map (·.close)
  (List.range sortedPrices.length).map fun i =>
    let p := sortedPrices.getD i default
    let f := fundRows.getD i none
    let h := (rollingMax 252 closes).getD i 0
    let bv := f.bind (·.book_value)
    { date := p.date
      open_ := p.open_
      high := p.high
      low := p.low
      close := p.close
      volume := p.volume
      ticker := none
      book_value := bv
      total_assets := f.bind (·.total_assets)
      total_liabilities := f.bind (·.total_liabilities)
      pe_ratio := f.bind (·.pe_ratio)
      pb_ratio := f.bind (·.pb_ratio)
      eps := f.bind (·.eps)
      revenue := f.bind (·.revenue)
      net_income := f.bind (·.net_income)
      enterprise_value := f.bind (·.enterprise_value)
      sma_50 := (rollingMean 50 closes).getD i 0
      sma_200 := (rollingMean 200 closes).getD i 0
      high_52w := h
      pct_from_high_52w := if h = 0 then none else some ((p.close / h - 1) * 100)
      book_value_per_share := bv
      price_to_book :=
        match bv with
        | some b => if b = 0 then none else some (p.close / b)
        | none => none }

/-- One iteration of the conversion loop, `processor.py` lines 131-174:
build a `DailyMetrics` from a merged row, or drop the row when pydantic
rejects it (the `except` of lines 172-174). Rejection happens when
`ticker` is `None` (pydantic requires `ticker: str`) — which is always
the case, see `buildMerged` — and when a non-finite float such as
`pct_from_high_52w` on a zero `high_52w` reaches a Decimal field
(pydantic v2 rejects non-finite decimals). -/
def mkDailyMetricsFromMerged (r : MergedRow) : Option DailyMetrics :=
  match r.ticker with
  | none => none
  | some t =>
    match r.pct_from_high_52w with
    | none => none
    | some pct =>
      some { date := r.date
             ticker := t
             close := r.close
             sma_50 := some r.sma_50
             sma_200 := some r.sma_200
             high_52w := some r.high_52w
             pct_from_high_52w := some pct
             book_value_per_share := r.book_value_per_share
             price_to_book := r.price_to_book
             enterprise_value := r.enterprise_value }

/-- The conversion loop over all merged rows (`processor.py` lines
129-174). The date/close null checks of lines 133-136 never fire on
typed rows and are not modelled. -/
def convertMerged (rows : List MergedRow) : List DailyMetrics :=
  rows.filterMap mkDailyMetricsFromMerged

/-- The price-only fallback, `processor.py` lines 175-215: recompute
the technical indicators from the sorted price frame alone, with
`ticker := ""` and the fundamental-derived fields forced `None`. A row
is dropped (the `except` of lines 214-215) exactly when its
`pct_from_high_52w` is non-finite, i.e. when the trailing 252-day
maximum of `close` is zero. -/
def processFallback (sortedPrices : List PriceData) : List DailyMetrics :=
  let closes := sortedPrices.map (·.close)
  (List.range sortedPrices.length).filterMap fun i =>
    let p := sortedPrices.getD i default
    let h := (rollingMax 252 closes).getD i 0
    if h = 0 then none
    else
      some { date := p.date
             ticker := ""
             close := p.close
             sma_50 := some ((rollingMean 50 closes).getD i 0)
             sma_200 := some ((rollingMean 200 closes).getD i 0)
             high_52w := some h
             pct_from_high_52w := some ((p.close / h - 1) * 100)
             book_value_per_share := none
             price_to_book := none
             enterprise_value := none }

/-- `processor.process_data`: `none` models an uncaught exception (the
duplicate-`as_of` `reindex` failure); `some` carries the rows of the
returned DataFrame. Lines 19-22 return an empty frame on empty prices;
lines 175-176 switch to the fallback when the conversion loop produced
no rows while price data exists. -/
def process_data (prices : List PriceData) (fundamentals : List FundamentalData) :
    Option (List DailyMetrics) :=
  if prices.isEmpty then some []
  else
    let price_sorted := sortPricesByDate prices
    match buildFundRows price_sorted fundamentals with
    | none => none
    | some fundRows =>
      let metrics := convertMerged (buildMerged price_sorted fundRows)
      if metrics.isEmpty ∧ ¬price_sorted.isEmpty then some (processFallback price_sorted)
      else some metrics

/-- A row of a DataFrame handed to the crossover detectors
(`signals.py`): a date plus the two SMA columns, either of which may be
null. -/
structure SignalRow where
  date : Date
  sma_50 : Option ℚ
  sma_200 : Option ℚ
deriving DecidableEq, Repr, Inhabited

/-- The rows selected by the mask `df["sma_50"].notna() &
df["sma_200"].notna()` (`signals.py` line 22), as
(date, sma_50, sma_200) triples in original order. -/
def validRows (df : List SignalRow) : List (Date × ℚ × ℚ) :=
  df.filterMap fun r =>
    match r.sma_50, r.sma_200 with
    | some a, some b => some (r.date, a, b)
    | _, _ => none

/-- The shifted comparison of `signals.py` lines 27-31 on the valid
subseries: an event at each valid row whose predecessor (in the valid
subseries) had `sma_50 ≤ sma_200` while it has `sma_50 > sma_200`; the
first valid row never fires (`shift(1)` leaves NaN there, and
`NaN <= x` is False). -/
def goldenScan : List (Date × ℚ × ℚ) → List Date
  | p :: c :: rest =>
    (if p.2.1 ≤ p.2.2 ∧ c.2.2 < c.2.1 then [c.1] else []) ++ goldenScan (c :: rest)
  | _ => []

/-- `signals.detect_golden_crossover`: restrict to rows where both SMAs
are non-null (line 22), return `[]` when fewer than 2 such rows exist
(lines 23-24), else emit the dates of the upward crossings (lines
25-31). The missing-column guard of lines 18-20 cannot fire on typed
rows and is not modelled. -/
def detect_golden_crossover (df : List SignalRow) : List Date :=
  if (validRows df).length < 2 then []
  else goldenScan (validRows df)

/-- A raw OHLCV tuple as read out of the yfinance history frame before
any validation (`data_fetcher.py` lines 32-45). -/
structure RawPrice where
  date : Date
  open_ : ℚ
  high : ℚ
  low : ℚ
  close : ℚ
  volume : Int
deriving DecidableEq, Repr, Inhabited

/-- Construction of a `models.PriceData` record, i.e. pydantic
validation running `check_price_relationships` (`models.py` lines
15-23): the three checks run in order and the first failure raises a
`ValidationError` carrying the shown message. The `is not None` guards
are vacuous on the mandatory typed fields. -/
def mkPriceData (r : RawPrice) : Except String PriceData :=
  if r.high < r.low then
    Except.error "High price must be >= Low price"
  else if r.open_ > r.high ∨ r.open_ < r.low then
    Except.error "Open price must be between Low and High"
  else if r.close > r.high ∨ r.close < r.low then
    Except.error "Close price must be between Low and High"
  else
    Except.ok
      { date := r.date, open_ := r.open_, high := r.high, low := r.low, close := r.close,
        volume := r.volume }

/-- The per-row validation loop of `data_fetcher.fetch_stock_data`
(lines 32-48): each raw row is validated independently; a valid row is
appended to the result, an invalid one is dropped and a warning naming
the offending date and the validation error is recorded
(`logging.warning(f"Invalid price row ... on {row['Date']}: {e}")`).
Returns (accepted rows, recorded warnings), both in input order. -/
def fetchPrices : List RawPrice → List PriceData × List (Date × String)
  | [] => ([], [])
  | r :: rest =>
    let (ps, ws) := fetchPrices rest
    match mkPriceData r with
    | Except.ok p => (p :: ps, ws)
    | Except.error e => (ps, (r.date, e) :: ws)

/-! ### Concrete inputs

The three-day scenario of the specification's "Concrete scenario"
property (also the data of `tests/test_processor.py`): three
consecutive daily prices with closes 11, 12, 13 and one fundamental
observation dated the prior day with `book_value = 10`. -/

/-- The three price rows of the concrete scenario (dates 1, 2, 3). -/
def scenarioPrices : List PriceData :=
  [ { date := 1, open_ := 10, high := 12, low := 9, close := 11, volume := 1000 },
    { date := 2, open_ := 11, high := 13, low := 10, close := 12, volume := 1100 },
    { date := 3, open_ := 12, high := 14, low := 11, close := 13, volume := 1200 } ]

/-- The single fundamental observation of the concrete scenario, dated
the day before the first price (date 0), with `book_value = 10`. -/
def scenarioFund : FundamentalData :=
  { as_of := 0, ticker := "TEST", book_value := some 10, total_assets := some 100,
    total_liabilities := some 50, pe_ratio := some 15, pb_ratio := some (11/10),
    eps := some 2, revenue := some 1000, net_income := some 100,
    enterprise_value := some 200, source := "quarterly" }

/-- A price row that passes `check_price_relationships` (all prices
zero, `0 ≤ 0 ≤ 0`) but whose fallback conversion fails: its trailing
close maximum is `0`, so `pct_from_high_52w` is the non-finite float
`0/0 - 1` and pydantic drops the row. -/
def zeroPrice : PriceData :=
  { date := 7, open_ := 0, high := 0, low := 0, close := 0, volume := 0 }

/-- A second all-zero valid price row on a different date. -/
def zeroPrice' : PriceData :=
  { date := 8, open_ := 0, high := 0, low := 0, close := 0, volume := 0 }

/-- Input rows for the crossover-detector example: valid rows on dates
1, 2, 4, 5, 6 and an excluded (null) row on date 3, with upward
crossings at dates 4 and 6. -/
def signalExample : List SignalRow :=
  [ { date := 1, sma_50 := some 1, sma_200 := some 2 },
    { date := 2, sma_50 := some 2, sma_200 := some 2 },
    { date := 3, sma_50 := none, sma_200 := some 5 },
    { date := 4, sma_50 := some 3, sma_200 := some 2 },
    { date := 5, sma_50 := some 1, sma_200 := some 2 },
    { date := 6, sma_50 := some 5, sma_200 := some 2 } ]

/-- A raw price tuple satisfying the OHLC ordering relationships. -/
def rawValid : RawPrice :=
  { date := 1, open_ := 10, high := 12, low := 9, close := 11, volume := 5 }

/-- A raw price tuple violating `open ≤ high`. -/
def rawInvalid : RawPrice :=
  { date := 2, open_ := 15, high := 12, low := 9, close := 11, volume := 5 }

/-- First of two price rows sharing date 1. -/
def dupDatePrice : PriceData :=
  { date := 1, open_ := 10, high := 12, low := 9, close := 11, volume := 1000 }

/-- Second price row on the same date 1. -/
def dupDatePrice' : PriceData :=
  { date := 1, open_ := 11, high := 13, low := 10, close := 12, volume := 1100 }

/-- First of two fundamental observations sharing `as_of = 1`. -/
def dupAsOfFund : FundamentalData :=
  { as_of := 1, ticker := "TEST", book_value := some 10, total_assets := some 100,
    total_liabilities := some 50, pe_ratio := none, pb_ratio := none, eps := none,
    revenue := none, net_income := none, enterprise_value := none, source := "quarterly" }

/-- Second fundamental observation with the same `as_of = 1`. -/
def dupAsOfFund' : FundamentalData :=
  { as_of := 1, ticker := "TEST", book_value := some 20, total_assets := some 200,
    total_liabilities := some 80, pe_ratio := none, pb_ratio := none, eps := none,
    revenue := none, net_income := none, enterprise_value := none, source := "quarterly" }

/-! ### Claim theorems: the concrete scenario (C1, C2, C4) -/

unseal Rat.mul Rat.inv Rat.add Rat.sub in
/-- C1 (code bug): carry-forward correctness fails on the output of
`process_data`. In the concrete scenario the latest
`FundamentalObservation` with `as_of ≤ d` exists for every price date
`d` and has `book_value = 10` — the forward-fill lookup of
`processor.py` line 62 finds it — yet every returned row carries a
null `book_value_per_share`, because the merge drops the `ticker`
column and re-adds it as `None`, so every merged row fails
`DailyMetrics` validation and the price-only fallback (which forces
the fundamental fields to `None`) produces the output. -/
theorem carry_forward_dropped_in_output :
    ffillLookup (sortFundsByAsOf [scenarioFund]) 3 = some scenarioFund ∧
    scenarioFund.book_value = some 10 ∧
    (process_data scenarioPrices [scenarioFund]).map (·.map (·.book_value_per_share)) =
      some [none, none, none] := by
  decide

unseal Rat.mul Rat.inv Rat.add Rat.sub in
/-- C2 (code bug): in the three-day scenario (closes 11, 12, 13, one
fundamental observation dated the prior day with `book_value = 10`)
the output does have 3 rows and `sma_50` on day 3 is
`(11+12+13)/3 = 12`, but `book_value_per_share` is null on all three
rows and `price_to_book` is null (not 1.1, 1.2, 1.3): the output comes
from the price-only fallback, see `carry_forward_dropped_in_output`. -/
theorem concrete_scenario_divergence :
    (process_data scenarioPrices [scenarioFund]).map (·.map (·.book_value_per_share)) =
      some [none, none, none] ∧
    (process_data scenarioPrices [scenarioFund]).map (·.map (·.price_to_book)) =
      some [none, none, none] ∧
    (process_data scenarioPrices [scenarioFund]).map (·.length) = some 3 ∧
    (process_data scenarioPrices [scenarioFund]).map (·.map (·.sma_50)) =
      some [some 11, some (23 / 2), some 12] := by
  decide

unseal Rat.mul Rat.inv Rat.add Rat.sub in
/-- C4 (code bug): the `price_to_book` column of the intermediate
`merged` frame (`processor.py` lines 122-127) is exactly
`close / book_value` when the carried `book_value` is present and
non-zero — here `11/10`, `12/10`, `13/10` — but the `price_to_book`
attached to every returned row is null, because the conversion loop
rejects every merged row (`None` ticker) and the fallback forces
`price_to_book = None`. -/
theorem price_to_book_dropped_in_output :
    (buildFundRows (sortPricesByDate scenarioPrices) [scenarioFund]).map
        (fun frs => (buildMerged (sortPricesByDate scenarioPrices) frs).map (·.price_to_book)) =
      some [some (11 / 10), some (6 / 5), some (13 / 10)] ∧
    (process_data scenarioPrices [scenarioFund]).map (·.map (·.price_to_book)) =
      some [none, none, none] := by
  decide

unseal Rat.mul Rat.inv Rat.add Rat.sub in
/-- C6 (counterexample): a single all-zero price row is valid, its
date and close are present, yet the output has 0 rows rather than 1 —
the row is dropped because its `pct_from_high_52w` is non-finite
(trailing close maximum 0), a drop reason the claim does not admit. -/
theorem output_length_counterexample :
    (process_data [zeroPrice] []).map (·.length) = some 0 ∧ [zeroPrice].length = 1 := by
  decide

unseal Rat.mul Rat.inv Rat.add Rat.sub in
/-- C7 (counterexample): with zero fundamentals and one valid price
row (the all-zero row), the output of `process_data` is empty, not
non-empty: the lone fallback row fails numeric conversion. -/
theorem empty_fundamentals_counterexample :
    process_data [zeroPrice'] [] = some [] := by
  decide

/-! ### Supporting lemmas -/

theorem getD_map_range {α : Type} (f : Nat → α) {n i : Nat} (d : α) (h : i < n) :
    ((List.range n).map f).getD i d = f i := by
  rw [List.getD_eq_getElem?_getD]
  simp [List.getElem?_map, List.getElem?_range, h]

/-- Every merged row is rejected by the conversion loop: its `ticker`
is `None` (the merge dropped the ticker column), and pydantic requires
a string. -/
theorem mkDailyMetricsFromMerged_eq_none (s : List PriceData)
    (frs : List (Option FundamentalData)) (r : MergedRow) (hr : r ∈ buildMerged s frs) :
    mkDailyMetricsFromMerged r = none := by
  simp only [buildMerged, List.mem_map, List.mem_range] at hr
  obtain ⟨i, -, rfl⟩ := hr
  rfl

/-- The conversion loop over the merged frame produces no rows. -/
theorem convertMerged_buildMerged (s : List PriceData) (frs : List (Option FundamentalData)) :
    convertMerged (buildMerged s frs) = [] := by
  rw [convertMerged, List.filterMap_eq_nil_iff]
  exact fun r hr => mkDailyMetricsFromMerged_eq_none s frs r hr

theorem perm_sortPricesByDate (l : List PriceData) : List.Perm (sortPricesByDate l) l :=
  List.perm_insertionSort _ l

theorem length_sortPricesByDate (l : List PriceData) :
    (sortPricesByDate l).length = l.length :=
  (perm_sortPricesByDate l).length_eq

theorem sortPricesByDate_ne_nil {l : List PriceData} (h : l ≠ []) :
    sortPricesByDate l ≠ [] := by
  intro hnil
  apply h
  have hlen := length_sortPricesByDate l
  rw [hnil] at hlen
  exact List.length_eq_zero.mp hlen.symm

/-- Whenever `process_data` returns on a non-empty price list, the
returned rows are exactly the price-only fallback of the sorted
prices: the main conversion loop contributes nothing. -/
theorem process_data_eq_fallback {prices : List PriceData} {funds : List FundamentalData}
    {out : List DailyMetrics} (hne : prices ≠ [])
    (h : process_data prices funds = some out) :
    out = processFallback (sortPricesByDate prices) := by
  unfold process_data at h
  have hie : prices.isEmpty = false := by
    cases prices with
    | nil => exact absurd rfl hne
    | cons a l => rfl
  rw [hie] at h
  simp only [Bool.false_eq_true, if_false] at h
  cases hb : buildFundRows (sortPricesByDate prices) funds with
  | none => rw [hb] at h; cases h
  | some frs =>
    rw [hb] at h
    simp only [convertMerged_buildMerged, List.isEmpty_nil, List.isEmpty_eq_true,
      sortPricesByDate_ne_nil hne, not_false_eq_true, and_self, if_true,
      Option.some.injEq] at h
    exact h.symm

/-- The empty-fundamentals run always returns the fallback rows. -/
theorem process_data_empty_funds (prices : List PriceData) (hne : prices ≠ []) :
    process_data prices [] = some (processFallback (sortPricesByDate prices)) := by
  unfold process_data
  have hie : prices.isEmpty = false := by
    cases prices with
    | nil => exact absurd rfl hne
    | cons a l => rfl
  rw [hie]
  simp only [Bool.false_eq_true, if_false, buildFundRows, List.isEmpty_nil, if_true]
  simp only [convertMerged_buildMerged, List.isEmpty_nil, List.isEmpty_eq_true,
    sortPricesByDate_ne_nil hne, not_false_eq_true, and_self, if_true]

/-- Shape of each fallback row: empty ticker, null fundamental-derived
fields, both SMAs populated. -/
theorem mem_processFallback {r : DailyMetrics} {s : List PriceData}
    (h : r ∈ processFallback s) :
    r.ticker = "" ∧ r.book_value_per_share = none ∧ r.price_to_book = none ∧
      r.enterprise_value = none ∧ r.sma_50.isSome ∧ r.sma_200.isSome := by
  simp only [processFallback, List.mem_filterMap, List.mem_range] at h
  obtain ⟨i, -, hi⟩ := h
  by_cases hz : (rollingMax 252 (s.map (·.close))).getD i 0 = 0
  · rw [if_pos hz] at hi; cases hi
  · rw [if_neg hz] at hi
    cases hi
    exact ⟨rfl, rfl, rfl, rfl, rfl, rfl⟩

/-- C3: for every input with a non-empty price list on which
`process_data` returns, the result equals the price-only fallback
computation on the sorted prices, is therefore identical to the run
with the fundamentals removed, and every returned row has an empty
ticker and null `book_value_per_share`, `price_to_book` and
`enterprise_value`: the merged rows carry a `None` ticker that fails
`DailyMetrics` validation, so the main conversion loop yields no rows
and the fallback branch produces the output. -/
theorem output_always_fallback (prices : List PriceData) (funds : List FundamentalData)
    (out : List DailyMetrics) (hne : prices ≠ [])
    (h : process_data prices funds = some out) :
    out = processFallback (sortPricesByDate prices) ∧
    process_data prices [] = some out ∧
    ∀ r ∈ out, r.ticker = "" ∧ r.book_value_per_share = none ∧
      r.price_to_book = none ∧ r.enterprise_value = none := by
  have hfb := process_data_eq_fallback hne h
  refine ⟨hfb, ?_, ?_⟩
  · rw [process_data_empty_funds prices hne, hfb]
  · intro r hr
    rw [hfb] at hr
    obtain ⟨h1, h2, h3, h4, -, -⟩ := mem_processFallback hr
    exact ⟨h1, h2, h3, h4⟩

theorem length_filterMap_all_some {α β : Type} (f : α → Option β) :
    ∀ l : List α, (∀ a ∈ l, (f a).isSome) → (l.filterMap f).length = l.length
  | [], _ => rfl
  | a :: l, h => by
    rw [List.filterMap_cons]
    cases hfa : f a with
    | none =>
      have := h a (List.mem_cons_self a l)
      rw [hfa] at this
      cases this
    | some b =>
      rw [List.length_cons, List.length_cons,
        length_filterMap_all_some f l (fun x hx => h x (List.mem_cons_of_mem a hx))]

theorem foldl_max_pos : ∀ (xs : List ℚ) (x : ℚ), 0 < x → (∀ y ∈ xs, 0 < y) →
    0 < xs.foldl max x
  | [], _, hx, _ => hx
  | y :: ys, x, hx, h => by
    rw [List.foldl_cons]
    exact foldl_max_pos ys (max x y) (lt_max_of_lt_left hx)
      (fun z hz => h z (List.mem_cons_of_mem y hz))

theorem listMax_pos {xs : List ℚ} (hne : xs ≠ []) (h : ∀ y ∈ xs, 0 < y) : 0 < listMax xs := by
  cases xs with
  | nil => exact absurd rfl hne
  | cons x ys =>
    exact foldl_max_pos ys x (h x (List.mem_cons_self x ys))
      (fun z hz => h z (List.mem_cons_of_mem x hz))

theorem windowSlice_ne_nil {w : Nat} (hw : 0 < w) {xs : List ℚ} {i : Nat}
    (hi : i < xs.length) : windowSlice w xs i ≠ [] := by
  intro hnil
  have hlen := congrArg List.length hnil
  simp only [windowSlice, List.length_drop, List.length_take, List.length_nil] at hlen
  omega

theorem windowSlice_subset {w : Nat} {xs : List ℚ} {i : Nat} {y : ℚ}
    (hy : y ∈ windowSlice w xs i) : y ∈ xs :=
  List.mem_of_mem_take (List.mem_of_mem_drop hy)

theorem rollingMax_getD_pos {xs : List ℚ} (hpos : ∀ y ∈ xs, 0 < y) {i : Nat}
    (hi : i < xs.length) : 0 < (rollingMax 252 xs).getD i 0 := by
  rw [rollingMax, getD_map_range _ _ hi]
  exact listMax_pos (windowSlice_ne_nil (by norm_num) hi)
    (fun y hy => hpos y (windowSlice_subset hy))

theorem length_processFallback_le (s : List PriceData) :
    (processFallback s).length ≤ s.length := by
  simp only [processFallback]
  exact le_trans (List.length_filterMap_le _ _) (le_of_eq (List.length_range s.length))

theorem length_processFallback_of_pos {s : List PriceData} (hpos : ∀ p ∈ s, 0 < p.close) :
    (processFallback s).length = s.length := by
  simp only [processFallback]
  rw [length_filterMap_all_some]
  · exact List.length_range s.length
  · intro i hi
    rw [List.mem_range] at hi
    have hc : ∀ y ∈ s.map (·.close), 0 < y := by
      intro y hy
      obtain ⟨p, hp, rfl⟩ := List.mem_map.mp hy
      exact hpos p hp
    have hi' : i < (s.map (·.close)).length := by simpa using hi
    have hz := rollingMax_getD_pos hc hi'
    rw [List.getD_eq_getElem?_getD] at hz
    simp [hz.ne']

/-- C6 (amended): the output length never exceeds the input price
count; zero price rows give an empty result, not an exception; and the
lengths are equal unless a fallback row was dropped by the late
numeric conversion — which cannot happen when every close is
positive. -/
theorem output_length_bound (prices : List PriceData) (funds : List FundamentalData)
    (out : List DailyMetrics) (h : process_data prices funds = some out) :
    out.length ≤ prices.length ∧ process_data [] funds = some [] ∧
    ((∀ p ∈ prices, 0 < p.close) → out.length = prices.length) := by
  refine ⟨?_, rfl, ?_⟩
  · by_cases hne : prices = []
    · subst hne
      have : out = [] := by
        rw [show process_data [] funds = some [] from rfl] at h
        exact (Option.some_inj.mp h).symm
      simp [this]
    · rw [process_data_eq_fallback hne h]
      rw [← length_sortPricesByDate prices]
      exact length_processFallback_le _
  · intro hpos
    by_cases hne : prices = []
    · subst hne
      have : out = [] := by
        rw [show process_data [] funds = some [] from rfl] at h
        exact (Option.some_inj.mp h).symm
      simp [this]
    · rw [process_data_eq_fallback hne h]
      rw [← length_sortPricesByDate prices]
      exact length_processFallback_of_pos
        (fun p hp => hpos p ((perm_sortPricesByDate prices).mem_iff.mp hp))

/-- C7 (amended): with zero fundamentals and a non-empty price list,
every returned row has null `book_value_per_share` and
`price_to_book`; the output is moreover non-empty provided no row is
lost to the late numeric conversion — in particular whenever every
close is positive. -/
theorem empty_fundamentals_path (prices : List PriceData) (out : List DailyMetrics)
    (hne : prices ≠ []) (h : process_data prices [] = some out) :
    (∀ r ∈ out, r.book_value_per_share = none ∧ r.price_to_book = none) ∧
    ((∀ p ∈ prices, 0 < p.close) → out ≠ []) := by
  have hfb := process_data_eq_fallback hne h
  constructor
  · intro r hr
    rw [hfb] at hr
    obtain ⟨-, h2, h3, -, -, -⟩ := mem_processFallback hr
    exact ⟨h2, h3⟩
  · intro hpos hnil
    have hlen : out.length = prices.length := by
      rw [hfb, ← length_sortPricesByDate prices]
      exact length_processFallback_of_pos
        (fun p hp => hpos p ((perm_sortPricesByDate prices).mem_iff.mp hp))
    rw [hnil] at hlen
    exact hne (List.length_eq_zero.mp hlen.symm)

unseal Rat.mul Rat.inv Rat.add Rat.sub in
/-- C10 (counterexample): duplicate `as_of` dates do not always make
`process_data` raise. With two price rows on date 1 and two
fundamental observations with `as_of = 1`, the sorted duplicate
`as_of` index equals the price-date reindex target, so pandas
`Index.reindex` short-circuits (`indexer = None`) before its
duplicate-label check and the run returns the fallback rows instead
of raising. -/
theorem duplicate_as_of_equal_calendar_returns :
    ¬ ([dupAsOfFund, dupAsOfFund'].map (·.as_of)).Nodup ∧
    process_data [dupDatePrice, dupDatePrice'] [dupAsOfFund, dupAsOfFund'] =
      some (processFallback (sortPricesByDate [dupDatePrice, dupDatePrice'])) := by
  decide

/-- C10 (amended): with a non-empty price list, two fundamental
observations sharing an `as_of` date make `process_data` raise
instead of returning — the forward-fill `reindex` onto the price
calendar rejects an index with duplicate labels and nothing catches
the error — unless the sorted `as_of` sequence coincides exactly with
the sorted price-date sequence, in which case `Index.reindex`
short-circuits on equal indexes before the duplicate-label check and
the run proceeds. -/
theorem duplicate_as_of_raises_unless_equal_calendar (prices : List PriceData)
    (funds : List FundamentalData) (hne : prices ≠ [])
    (hdup : ¬ (funds.map (·.as_of)).Nodup)
    (hneq : (sortFundsByAsOf funds).map (·.as_of) ≠ (sortPricesByDate prices).map (·.date)) :
    process_data prices funds = none := by
  have hfie : funds.isEmpty = false := by
    cases funds with
    | nil => exact absurd (by simp) hdup
    | cons a l => rfl
  have hsortdup : ¬ ((sortFundsByAsOf funds).map (·.as_of)).Nodup := by
    intro hnd
    exact hdup (((List.perm_insertionSort _ funds).map (·.as_of)).nodup_iff.mp hnd)
  have hie : prices.isEmpty = false := by
    cases prices with
    | nil => exact absurd rfl hne
    | cons a l => rfl
  have hb : buildFundRows (sortPricesByDate prices) funds = none := by
    unfold buildFundRows
    rw [hfie]
    simp only [Bool.false_eq_true, if_false]
    rw [if_neg hneq, if_neg hsortdup]
  unfold process_data
  rw [hie]
  simp only [Bool.false_eq_true, if_false]
  rw [hb]

theorem validRows_cons_some {r : SignalRow} {a b : ℚ} (h50 : r.sma_50 = some a)
    (h200 : r.sma_200 = some b) (rest : List SignalRow) :
    validRows (r :: rest) = (r.date, a, b) :: validRows rest := by
  simp only [validRows, List.filterMap_cons, h50, h200]

theorem validRows_cons_none {r : SignalRow} (h : r.sma_50 = none ∨ r.sma_200 = none)
    (rest : List SignalRow) : validRows (r :: rest) = validRows rest := by
  cases h50 : r.sma_50 with
  | none => simp only [validRows, List.filterMap_cons, h50]
  | some a =>
    cases h200 : r.sma_200 with
    | none => simp only [validRows, List.filterMap_cons, h50, h200]
    | some b =>
      rcases h with h | h
      · rw [h50] at h; cases h
      · rw [h200] at h; cases h

theorem goldenScan_eq_zip : ∀ l : List (Date × ℚ × ℚ),
    goldenScan l = (l.zip l.tail).filterMap
      (fun pc => if pc.1.2.1 ≤ pc.1.2.2 ∧ pc.2.2.2 < pc.2.2.1 then some pc.2.1 else none)
  | [] => rfl
  | [_] => rfl
  | p :: c :: rest => by
    have ih := goldenScan_eq_zip (c :: rest)
    show (if p.2.1 ≤ p.2.2 ∧ c.2.2 < c.2.1 then [c.1] else []) ++ goldenScan (c :: rest) = _
    rw [ih]
    show _ = List.filterMap _ ((p, c) :: (c :: rest).zip rest)
    rw [List.filterMap_cons]
    by_cases hc : p.2.1 ≤ p.2.2 ∧ c.2.2 < c.2.1
    · rw [if_pos hc]
      simp only [hc, and_self, if_pos, List.singleton_append]
      rfl
    · rw [if_neg hc]
      simp only [hc, if_neg, List.nil_append]
      rfl

theorem goldenScan_sublist : ∀ l : List (Date × ℚ × ℚ),
    (goldenScan l).Sublist (l.tail.map (·.1))
  | [] => List.nil_sublist _
  | [_] => List.nil_sublist _
  | p :: c :: rest => by
    have ih := goldenScan_sublist (c :: rest)
    show ((if p.2.1 ≤ p.2.2 ∧ c.2.2 < c.2.1 then [c.1] else []) ++
      goldenScan (c :: rest)).Sublist (c.1 :: rest.map (·.1))
    by_cases hc : p.2.1 ≤ p.2.2 ∧ c.2.2 < c.2.1
    · rw [if_pos hc, List.singleton_append]
      exact List.Sublist.cons₂ _ ih
    · rw [if_neg hc, List.nil_append]
      exact List.Sublist.cons _ ih

theorem validRows_dates_sublist : ∀ df : List SignalRow,
    ((validRows df).map (·.1)).Sublist (df.map (·.date))
  | [] => List.nil_sublist _
  | r :: rest => by
    have ih := validRows_dates_sublist rest
    cases h50 : r.sma_50 with
    | none =>
      rw [validRows_cons_none (Or.inl h50), List.map_cons]
      exact List.Sublist.cons _ ih
    | some a =>
      cases h200 : r.sma_200 with
      | none =>
        rw [validRows_cons_none (Or.inr h200), List.map_cons]
        exact List.Sublist.cons _ ih
      | some b =>
        rw [validRows_cons_some h50 h200, List.map_cons, List.map_cons]
        exact List.Sublist.cons₂ _ ih

theorem detect_golden_crossover_eq_zip (df : List SignalRow) :
    detect_golden_crossover df = ((validRows df).zip (validRows df).tail).filterMap
      (fun pc => if pc.1.2.1 ≤ pc.1.2.2 ∧ pc.2.2.2 < pc.2.2.1 then some pc.2.1 else none) := by
  rw [detect_golden_crossover]
  by_cases hlen : (validRows df).length < 2
  · rw [if_pos hlen]
    cases hv : validRows df with
    | nil => simp
    | cons a l =>
      cases l with
      | nil => simp
      | cons b m =>
        rw [hv] at hlen
        simp only [List.length_cons] at hlen
        omega
  · rw [if_neg hlen]
    exact goldenScan_eq_zip _

theorem detect_golden_crossover_sublist (df : List SignalRow) :
    (detect_golden_crossover df).Sublist (df.map (·.date)) := by
  rw [detect_golden_crossover]
  by_cases hlen : (validRows df).length < 2
  · rw [if_pos hlen]
    exact List.nil_sublist _
  · rw [if_neg hlen]
    refine (goldenScan_sublist (validRows df)).trans (List.Sublist.trans ?_
      (validRows_dates_sublist df))
    exact (List.tail_sublist (validRows df)).map _

/-- C5: the detector emits an event exactly at each valid row (both
SMAs non-null) whose predecessor among the valid rows — not the
positional predecessor, so null rows are skipped without resetting the
comparison — satisfied `sma_50 ≤ sma_200` while the row itself has
`sma_50 > sma_200`; all such crossings are reported, and when the
input rows are in ascending date order the emitted dates are ascending
as well. -/
theorem golden_crossover_pairs (df : List SignalRow) :
    detect_golden_crossover df =
      ((validRows df).zip (validRows df).tail).filterMap
        (fun pc => if pc.1.2.1 ≤ pc.1.2.2 ∧ pc.2.2.2 < pc.2.2.1 then some pc.2.1 else none) ∧
    (df.Pairwise (fun a b => a.date ≤ b.date) →
      (detect_golden_crossover df).Pairwise (· ≤ ·)) := by
  refine ⟨detect_golden_crossover_eq_zip df, fun hp => ?_⟩
  exact (hp.map (fun r : SignalRow => r.date) (fun a b h => h)).sublist
    (detect_golden_crossover_sublist df)

theorem sum_take_eq_sum_range (l : List ℚ) : ∀ k : Nat, k ≤ l.length →
    (l.take k).sum = ∑ j in Finset.range k, l.getD j 0 := by
  intro k
  induction k with
  | zero => intro _; simp
  | succ k ih =>
    intro hk
    have hk' : k < l.length := by omega
    rw [List.take_succ, List.sum_append, Finset.sum_range_succ, ih (by omega)]
    congr 1
    simp [List.getElem?_eq_getElem hk', List.getD_eq_getElem?_getD]

theorem sum_drop_eq (l : List ℚ) (m : Nat) : (l.drop m).sum = l.sum - (l.take m).sum := by
  have h := congrArg List.sum (List.take_append_drop m l)
  rw [List.sum_append] at h
  linarith

theorem sum_windowSlice (w : Nat) (xs : List ℚ) (i : Nat) (hi : i < xs.length) :
    (windowSlice w xs i).sum = ∑ j in Finset.Icc (i + 1 - w) i, xs.getD j 0 := by
  rw [windowSlice, sum_drop_eq, List.take_take]
  have hmin : min (i + 1 - w) (i + 1) = i + 1 - w := by omega
  rw [hmin, sum_take_eq_sum_range xs (i + 1) (by omega),
    sum_take_eq_sum_range xs (i + 1 - w) (by omega), ← Nat.Ico_succ_right,
    Finset.sum_Ico_eq_sub _ (by omega : i + 1 - w ≤ i + 1)]

theorem length_windowSlice (w : Nat) (xs : List ℚ) (i : Nat) (hi : i < xs.length) :
    (windowSlice w xs i).length = (Finset.Icc (i + 1 - w) i).card := by
  simp only [windowSlice, List.length_drop, List.length_take, Nat.card_Icc]
  omega

theorem rollingMean_getD (w : Nat) (xs : List ℚ) (i : Nat) (hi : i < xs.length) :
    (rollingMean w xs).getD i 0 =
      (∑ j in Finset.Icc (i + 1 - w) i, xs.getD j 0) /
        ((Finset.Icc (i + 1 - w) i).card : ℚ) := by
  rw [rollingMean, getD_map_range _ _ hi, sum_windowSlice w xs i hi,
    length_windowSlice w xs i hi]

/-- C8: on the merged timeline, `sma_50` at index `i` is the
arithmetic mean of `close` over the window `[max(0, i-49), i]`
(expanding until 50 observations accumulate), `sma_200` likewise over
`[max(0, i-199), i]`; both are total (`ℚ`-valued) on the merged frame,
and every output row carries them as non-null values. -/
theorem sma_window_mean (sortedPrices : List PriceData)
    (fundRows : List (Option FundamentalData)) (i : Nat) (hi : i < sortedPrices.length) :
    ((buildMerged sortedPrices fundRows).getD i default).sma_50 =
      (∑ j in Finset.Icc (i - 49) i, (sortedPrices.map (·.close)).getD j 0) /
        ((Finset.Icc (i - 49) i).card : ℚ) ∧
    ((buildMerged sortedPrices fundRows).getD i default).sma_200 =
      (∑ j in Finset.Icc (i - 199) i, (sortedPrices.map (·.close)).getD j 0) /
        ((Finset.Icc (i - 199) i).card : ℚ) ∧
    ∀ r ∈ processFallback sortedPrices, r.sma_50.isSome ∧ r.sma_200.isSome := by
  have hi' : i < (sortedPrices.map (·.close)).length := by simpa using hi
  have h50 : i + 1 - 50 = i - 49 := by omega
  have h200 : i + 1 - 200 = i - 199 := by omega
  have hrow : (buildMerged sortedPrices fundRows).getD i default =
      (fun j =>
        let p := sortedPrices.getD j default
        let f := (fundRows.getD j none)
        let h := (rollingMax 252 (sortedPrices.map (·.close))).getD j 0
        let bv := f.bind (·.book_value)
        { date := p.date, open_ := p.open_, high := p.high, low := p.low, close := p.close,
          volume := p.volume, ticker := none, book_value := bv,
          total_assets := f.bind (·.total_assets),
          total_liabilities := f.bind (·.total_liabilities), pe_ratio := f.bind (·.pe_ratio),
          pb_ratio := f.bind (·.pb_ratio), eps := f.bind (·.eps),
          revenue := f.bind (·.revenue), net_income := f.bind (·.net_income),
          enterprise_value := f.bind (·.enterprise_value),
          sma_50 := (rollingMean 50 (sortedPrices.map (·.close))).getD j 0,
          sma_200 := (rollingMean 200 (sortedPrices.map (·.close))).getD j 0,
          high_52w := h,
          pct_from_high_52w := if h = 0 then none else some ((p.close / h - 1) * 100),
          book_value_per_share := bv,
          price_to_book :=
            match bv with
            | some b => if b = 0 then none else some (p.close / b)
            | none => none } : Nat → MergedRow) i := by
    simp only [buildMerged]
    rw [getD_map_range _ _ hi]
  refine ⟨?_, ?_, fun r hr => (mem_processFallback hr).2.2.2.2⟩
  · rw [hrow]
    show (rollingMean 50 (sortedPrices.map (·.close))).getD i 0 = _
    rw [rollingMean_getD 50 _ i hi', h50]
  · rw [hrow]
    show (rollingMean 200 (sortedPrices.map (·.close))).getD i 0 = _
    rw [rollingMean_getD 200 _ i hi', h200]

theorem fetchPrices_spec : ∀ raws : List RawPrice,
    fetchPrices raws =
      (raws.filterMap (fun x => (mkPriceData x).toOption),
       raws.filterMap (fun x =>
         match mkPriceData x with
         | Except.error e => some (x.date, e)
         | Except.ok _ => none))
  | [] => rfl
  | r :: rest => by
    have ih := fetchPrices_spec rest
    show (let (ps, ws) := fetchPrices rest
          match mkPriceData r with
          | Except.ok p => (p :: ps, ws)
          | Except.error e => (ps, (r.date, e) :: ws)) = _
    rw [ih]
    cases hm : mkPriceData r with
    | ok p => simp [List.filterMap_cons, hm, Except.toOption]
    | error e => simp [List.filterMap_cons, hm, Except.toOption]

/-- C9: a raw price tuple is accepted (a `PriceData` record is
constructed) exactly when `low ≤ high`, `low ≤ open ≤ high` and
`low ≤ close ≤ high`; rejection raises a `ValidationError` whose
message names the violated relationship; and the fetch loop is
per-row: it keeps exactly the valid rows, in order, and records one
warning per invalid row carrying the offending date and the error —
the run never aborts. -/
theorem price_validation (r : RawPrice) (raws : List RawPrice) :
    ((mkPriceData r).isOk = true ↔
      (r.low ≤ r.high ∧ r.low ≤ r.open_ ∧ r.open_ ≤ r.high ∧
       r.low ≤ r.close ∧ r.close ≤ r.high)) ∧
    (∀ e, mkPriceData r = Except.error e →
      e = "High price must be >= Low price" ∨
      e = "Open price must be between Low and High" ∨
      e = "Close price must be between Low and High") ∧
    (fetchPrices raws).1 = raws.filterMap (fun x => (mkPriceData x).toOption) ∧
    (fetchPrices raws).2 = raws.filterMap (fun x =>
      match mkPriceData x with
      | Except.error e => some (x.date, e)
      | Except.ok _ => none) := by
  refine ⟨?_, ?_, by rw [fetchPrices_spec], by rw [fetchPrices_spec]⟩
  · unfold mkPriceData
    by_cases h1 : r.high < r.low
    · rw [if_pos h1]
      simp only [Except.isOk, Except.toBool, Bool.false_eq_true, false_iff, not_and]
      intro hlh
      linarith
    · rw [if_neg h1]
      by_cases h2 : r.open_ > r.high ∨ r.open_ < r.low
      · rw [if_pos h2]
        simp only [Except.isOk, Except.toBool, Bool.false_eq_true, false_iff, not_and]
        intro _ hlo hoh _
        rcases h2 with h2 | h2 <;> linarith
      · rw [if_neg h2]
        by_cases h3 : r.close > r.high ∨ r.close < r.low
        · rw [if_pos h3]
          simp only [Except.isOk, Except.toBool, Bool.false_eq_true, false_iff, not_and]
          intro _ _ _ hlc
          rcases h3 with h3 | h3 <;> linarith
        · rw [if_neg h3]
          simp only [Except.isOk, Except.toBool, true_iff]
          push_neg at h1 h2 h3
          exact ⟨h1, h2.2, h2.1, h3.2, h3.1⟩
  · intro e he
    unfold mkPriceData at he
    split_ifs at he with h1 h2 h3
    · exact Or.inl (Except.error.inj he).symm
    · exact Or.inr (Or.inl (Except.error.inj he).symm)
    · exact Or.inr (Or.inr (Except.error.inj he).symm)

/-! ### Witnesses -/

unseal Rat.mul Rat.inv Rat.add Rat.sub in
/-- Witness for C3 at the concrete three-day scenario. -/
theorem output_always_fallback_witness :
    process_data scenarioPrices [scenarioFund] =
      some (processFallback (sortPricesByDate scenarioPrices)) ∧
    process_data scenarioPrices [] =
      some (processFallback (sortPricesByDate scenarioPrices)) := by
  have h : process_data scenarioPrices [scenarioFund] =
      some (processFallback (sortPricesByDate scenarioPrices)) := by decide
  exact ⟨h, (output_always_fallback scenarioPrices [scenarioFund] _ (by decide) h).2.1⟩

/-- Witness for C5 at an input with a null row between valid rows. -/
theorem golden_crossover_pairs_witness :
    detect_golden_crossover signalExample =
      ((validRows signalExample).zip (validRows signalExample).tail).filterMap
        (fun pc => if pc.1.2.1 ≤ pc.1.2.2 ∧ pc.2.2.2 < pc.2.2.1 then some pc.2.1 else none) ∧
    (detect_golden_crossover signalExample).Pairwise (· ≤ ·) :=
  ⟨(golden_crossover_pairs signalExample).1,
   (golden_crossover_pairs signalExample).2 (by decide)⟩

unseal Rat.mul Rat.inv Rat.add Rat.sub in
/-- Witness for C6 at the concrete three-day scenario. -/
theorem output_length_bound_witness :
    (processFallback (sortPricesByDate scenarioPrices)).length ≤ scenarioPrices.length ∧
    process_data [] [] = some [] ∧
    (processFallback (sortPricesByDate scenarioPrices)).length = scenarioPrices.length := by
  have h : process_data scenarioPrices [] =
      some (processFallback (sortPricesByDate scenarioPrices)) := by decide
  have hthm := output_length_bound scenarioPrices [] _ h
  exact ⟨hthm.1, hthm.2.1, hthm.2.2 (by decide)⟩

unseal Rat.mul Rat.inv Rat.add Rat.sub in
/-- Witness for C7 at the concrete three-day scenario. -/
theorem empty_fundamentals_path_witness :
    ((processFallback (sortPricesByDate scenarioPrices)).getD 0
        default).book_value_per_share = none ∧
    ((processFallback (sortPricesByDate scenarioPrices)).getD 0 default).price_to_book = none ∧
    processFallback (sortPricesByDate scenarioPrices) ≠ [] := by
  have h : process_data scenarioPrices [] =
      some (processFallback (sortPricesByDate scenarioPrices)) := by decide
  have hthm := empty_fundamentals_path scenarioPrices _ (by decide) h
  refine ⟨(hthm.1 _ ?_).1, (hthm.1 _ ?_).2, hthm.2 (by decide)⟩ <;> decide

unseal Rat.mul Rat.inv Rat.add Rat.sub in
/-- Witness for C8 at index 2 of the sorted concrete scenario. -/
theorem sma_window_mean_witness :
    ((buildMerged (sortPricesByDate scenarioPrices) [none, none, none]).getD 2
        default).sma_50 =
      (∑ j in Finset.Icc (2 - 49) 2,
        ((sortPricesByDate scenarioPrices).map (·.close)).getD j 0) /
        ((Finset.Icc (2 - 49) 2).card : ℚ) ∧
    ((buildMerged (sortPricesByDate scenarioPrices) [none, none, none]).getD 2
        default).sma_200 =
      (∑ j in Finset.Icc (2 - 199) 2,
        ((sortPricesByDate scenarioPrices).map (·.close)).getD j 0) /
        ((Finset.Icc (2 - 199) 2).card : ℚ) :=
  ⟨(sma_window_mean (sortPricesByDate scenarioPrices) [none, none, none] 2 (by decide)).1,
   (sma_window_mean (sortPricesByDate scenarioPrices) [none, none, none] 2 (by decide)).2.1⟩

unseal Rat.mul Rat.inv Rat.add Rat.sub in
/-- Witness for C9 at one valid and one invalid raw row. -/
theorem price_validation_witness :
    ((mkPriceData rawValid).isOk = true ↔
      (rawValid.low ≤ rawValid.high ∧ rawValid.low ≤ rawValid.open_ ∧
       rawValid.open_ ≤ rawValid.high ∧ rawValid.low ≤ rawValid.close ∧
       rawValid.close ≤ rawValid.high)) ∧
    ("Open price must be between Low and High" = "High price must be >= Low price" ∨
     "Open price must be between Low and High" = "Open price must be between Low and High" ∨
     "Open price must be between Low and High" = "Close price must be between Low and High") ∧
    (fetchPrices [rawValid, rawInvalid]).1 =
      [rawValid, rawInvalid].filterMap (fun x => (mkPriceData x).toOption) ∧
    (fetchPrices [rawValid, rawInvalid]).2 =
      [rawValid, rawInvalid].filterMap (fun x =>
        match mkPriceData x with
        | Except.error e => some (x.date, e)
        | Except.ok _ => none) := by
  have hthm := price_validation rawValid [rawValid, rawInvalid]
  exact ⟨hthm.1, (price_validation rawInvalid []).2.1 _ (by rfl),
    hthm.2.2.1, hthm.2.2.2⟩

/-- Witness for C10 at the concrete scenario with the fundamental
observation duplicated: the duplicated `as_of` sequence `[0, 0]`
differs from the price calendar `[1, 2, 3]`, so the run raises. -/
theorem duplicate_as_of_raises_unless_equal_calendar_witness :
    process_data scenarioPrices [scenarioFund, scenarioFund] = none :=
  duplicate_as_of_raises_unless_equal_calendar scenarioPrices [scenarioFund, scenarioFund]
    (by decide) (by decide) (by decide)

end FinAnalyzer
